import Mathlib

/-!
Verification of the shopping-list sync integration (`custom_components/shopping_list`).

The Python source is shallowly embedded: Python strings become `List Char`
(named `Str` below), the insertion-ordered `dict` of local items becomes an
association list mutated only through a dict-style `upsert`, and every
fallible operation returns its partially-mutated state together with an
`Except` describing the Python exception that escaped, if any.  Remote I/O
performed by `GroshApi` is recorded as a trace of `Eff` events and the data
the remote would return is passed in as an explicit environment.
-/

set_option autoImplicit false

namespace ShoppingList

/-- Python strings, embedded as lists of characters. -/
abbrev Str := List Char

/-- Fields of `ShoppingItem.__init__`: the fields stored for one local item.
`bought` is `False`/`True` on every path exercised here (`async_add` passes
`False`, `grosh_to_shopping` passes an explicit boolean, and round-trips
through `to_ha` preserve it), so it is embedded as `Bool`. -/
structure ShoppingItem where
  name : Str
  id : Str
  amount : Option Nat := none
  groceryId : Str
  bought : Bool
  deriving DecidableEq, Repr

/-- The dictionary produced by `ShoppingItem.to_ha`:
`{"name": ..., "id": ..., "complete": ...}`. -/
structure HaItem where
  name : Str
  id : Str
  complete : Bool
  deriving DecidableEq, Repr

/-- Embeds `ShoppingItem.to_ha`: renders the display dict, with the name suffixed by
`f" [{self.groceryId}]"` and `complete` taken from `bought`. -/
def ShoppingItem.to_ha (it : ShoppingItem) : HaItem :=
  { name := it.name ++ (' ' :: '[' :: (it.groceryId ++ [']']))
    id := it.id
    complete := it.bought }

/-- Index of the first occurrence of the two-character marker `" ["` in a
string, mirroring Python's `name.index(" [")` / `" [" in name`. -/
def findMarker : Str → Option Nat
  | [] => none
  | [_] => none
  | a :: b :: rest =>
    if a = ' ' ∧ b = '[' then some 0
    else (findMarker (b :: rest)).map (· + 1)

/-- The split used by `ShoppingData.ha_to_shopping_item`, `async_add` and the
rename branch of `async_update`:

```python
groceryId = ""
if " [" in name:
    groceryId = name[name.index(" [") + 2 : len(name) - 1]
    name = name[0 : name.index(" [")]
```

returning the pair `(name, groceryId)`. -/
def splitName (s : Str) : Str × Str :=
  match findMarker s with
  | some i => (s.take i, (s.drop (i + 2)).take (s.length - 1 - (i + 2)))
  | none => (s, [])

/-- Embeds `ShoppingData.ha_to_shopping_item`: rebuilds a `ShoppingItem` from a
persisted display dict, splitting the bracket suffix out of the name and
keeping the stored `id`. -/
def ha_to_shopping_item (item : HaItem) : ShoppingItem :=
  { name := (splitName item.name).1
    id := item.id
    amount := none
    groceryId := (splitName item.name).2
    bought := item.complete }

/-- First value stored under key `k` in an association list, mirroring a
Python `dict` read (keys are unique in every map the program builds, so
"first" is exact). -/
def lookupKey {α : Type} (k : Str) : List (Str × α) → Option α
  | [] => none
  | p :: rest => if p.1 = k then some p.2 else lookupKey k rest

/-- Python `dict` assignment `m[k] = v`: replace the value stored under `k`
when the key is present, otherwise append the new pair at the end
(insertion order is preserved, as in CPython). -/
def upsert {α : Type} (m : List (Str × α)) (k : Str) (v : α) : List (Str × α) :=
  match m with
  | [] => [(k, v)]
  | p :: rest => if p.1 = k then (k, v) :: rest else p :: upsert rest k v

/-- The local item map `ShoppingData.map_items`. -/
abbrev ItemMap := List (Str × ShoppingItem)

/-- The id-resolution scan inside `GroshData.grosh_to_shopping`:

```python
name = bitm["name"]
for key, itm in item_map.items():
    if bitm["name"] == itm.name and bitm["groceryId"] == itm.groceryId:
        name = key
        break
```

returning the local id to use for the remote item. -/
def resolveId (bname bgid : Str) : ItemMap → Str
  | [] => bname
  | (key, itm) :: rest =>
    if bname = itm.name ∧ bgid = itm.groceryId then key
    else resolveId bname bgid rest

/-- One entry of the remote `purchase` or `bought` list: the dict
`{"name": ..., "groceryId": ...}` consumed by `grosh_to_shopping`. -/
structure RemoteItem where
  name : Str
  groceryId : Str
  deriving DecidableEq, Repr

/-- Embeds `GroshData.grosh_to_shopping`: builds the resolved `ShoppingItem` for a
remote item, reusing an existing local id when the scan finds a
`(name, groceryId)` match, else keying by the remote name. -/
def grosh_to_shopping (bitm : RemoteItem) (item_map : ItemMap) (bought : Bool) :
    ShoppingItem :=
  { name := bitm.name
    id := resolveId bitm.name bitm.groceryId item_map
    amount := none
    groceryId := bitm.groceryId
    bought := bought }

/-- The two groups returned by `GroshApi.get_items` (the `"purchase"` and
`"bought"` lists under the response's `"groceries"` key). -/
structure RemoteLists where
  purchase : List RemoteItem
  bought : List RemoteItem
  deriving DecidableEq, Repr

/-- The upsert loop of `ShoppingData.sync_grosh`:
`for itm in purchase_list + recent_list: self.map_items[itm.id] = itm`. -/
def upsertItems (m : ItemMap) (items : List ShoppingItem) : ItemMap :=
  items.foldl (fun acc itm => upsert acc itm.id itm) m

/-- The map transformation performed by one `sync_grosh` pass: both remote
groups are resolved against the incoming map (`update_lists` runs to
completion before any upsert), then upserted in order — `purchase` first,
`recent` second. -/
def syncMap (remote : RemoteLists) (m : ItemMap) : ItemMap :=
  upsertItems m
    (remote.purchase.map (fun r => grosh_to_shopping r m false)
      ++ remote.bought.map (fun r => grosh_to_shopping r m true))

/-- Mutable state of `ShoppingData` together with the `purchase_list` /
`recent_list` shadow lists held by its `GroshData`. -/
structure ShoppingState where
  map_items : ItemMap
  items : List HaItem
  purchase_list : List ShoppingItem
  recent_list : List ShoppingItem
  deriving DecidableEq, Repr

/-- The empty starting state (fresh install, empty persisted blob). -/
def emptyState : ShoppingState :=
  { map_items := [], items := [], purchase_list := [], recent_list := [] }

/-- HTTP traffic actually emitted by `GroshApi` during an operation. -/
inductive Eff where
  /-- The `PUT /households/{id}/bought/{itemId}` inside `GroshApi.purchase_item`. -/
  | purchasePut (itemId : Str)
  /-- The `GET /users/me/households` inside `GroshApi.get_lists`. -/
  | getLists
  /-- The `GET /households/{id}/current` inside `GroshApi.get_items`. -/
  | fetchItems
  /-- Step `ShoppingData.save` writing the persistence blob. -/
  | save
  deriving DecidableEq, Repr

/-- Python exceptions that escape the embedded operations. -/
inductive PyErr where
  /-- Calling a function with the wrong number of positional arguments. -/
  | typeError
  /-- Python `raise NotImplementedError` (stubbed `GroshApi` methods). -/
  | notImplemented
  /-- Python `raise ValueError` (`GroshApi.select_list` with an unknown list name). -/
  | valueError
  /-- A dedicated validation failure for malformed caller input.  No code
  path in the source ever raises it; it exists so the spec's
  `ValidationError` clause can be stated and compared with what the code
  actually raises. -/
  | validationError
  deriving DecidableEq, Repr

/-- Read-only environment: the catalog loaded by `load_catalog`, the list
names the remote returns from `GET /users/me/households`, and the
`{purchase, bought}` groups a fetch of the active list returns. -/
structure Env where
  catalog : List (Str × Str)
  listNames : List Str
  remote : RemoteLists
  deriving DecidableEq, Repr

/-- Embeds `GroshData.convert_name`: `if self.catalog.get(name): return
self.catalog.get(name); return name`.  The truthiness test means an empty
string stored in the catalog also falls through to `name`. -/
def convert_name (catalog : List (Str × Str)) (name : Str) : Str :=
  match lookupKey name catalog with
  | some v => if v = [] then name else v
  | none => name

/-- Embeds `GroshData.purchase_item`:

```python
await self.api.purchase_item(self.convert_name(item.name), item.groceryId)
```

`GroshApi.purchase_item` is declared as `async def purchase_item(self, item)`
— a single positional parameter — so this two-argument call raises
`TypeError` at call time, before any request is issued.  The embedding
therefore evaluates the arguments (for fidelity) and fails with
`PyErr.typeError`, emitting no traffic. -/
def grosh_purchase_item (catalog : List (Str × Str)) (item : ShoppingItem) :
    List Eff × Except PyErr Unit :=
  let _resolvedName := convert_name catalog item.name
  ([], Except.error PyErr.typeError)

/-- Embeds `GroshData.remove_item`, which calls `GroshApi.remove_item(self.convert_name(item.name))`,
whose body is `raise NotImplementedError` followed by dead code, so every
call fails with `NotImplementedError` and emits no traffic. -/
def grosh_remove_item (catalog : List (Str × Str)) (item : ShoppingItem) :
    List Eff × Except PyErr Unit :=
  let _resolvedName := convert_name catalog item.name
  ([], Except.error PyErr.notImplemented)

/-- Embeds `ShoppingData.sync_grosh`: run `update_lists` against the current map,
upsert every resolved item, and rebuild the `items` view via `to_ha`. -/
def sync_grosh (remote : RemoteLists) (st : ShoppingState) : ShoppingState :=
  let pl := remote.purchase.map (fun r => grosh_to_shopping r st.map_items false)
  let rl := remote.bought.map (fun r => grosh_to_shopping r st.map_items true)
  let m := upsertItems st.map_items (pl ++ rl)
  { map_items := m
    items := m.map (fun p => p.2.to_ha)
    purchase_list := pl
    recent_list := rl }

/-- Embeds `ShoppingData.remove`: `list.remove(item)` with `ValueError` swallowed —
drop the first element equal to `item`, or leave the list unchanged. -/
def removeFirst {α : Type} [DecidableEq α] (l : List α) (x : α) : List α :=
  match l with
  | [] => []
  | a :: rest => if a = x then rest else a :: removeFirst rest x

/-- Outcome of an embedded operation: the state left behind (Python object
state survives an escaping exception), the remote traffic emitted, and
either the returned value or the exception that propagated. -/
structure OpResult (α : Type) where
  state : ShoppingState
  effs : List Eff
  result : Except PyErr α
  deriving Repr

/-- Embeds `ShoppingData.async_add`:

```python
groceryId = ""
if " [" in name: ...split...
item = ShoppingItem({... "id": f"{name}", "bought": False})
self.items.append(item.to_ha())
await self.grosh.purchase_item(item)      # raises TypeError (arity)
self.map_items[item.id] = item
await self.sync_grosh()
await self.hass.async_add_executor_job(self.save)
return item.to_ha()
```

The append to `self.items` happens before the push, so it survives the
`TypeError`; the map insert, sync and save are never reached. -/
def async_add (env : Env) (st : ShoppingState) (rawName : Str) : OpResult HaItem :=
  let p := splitName rawName
  let item : ShoppingItem :=
    { name := p.1, id := p.1, amount := none, groceryId := p.2, bought := false }
  let st1 := { st with items := st.items ++ [item.to_ha] }
  match grosh_purchase_item env.catalog item with
  | (effs, Except.error e) => { state := st1, effs := effs, result := Except.error e }
  | (effs, Except.ok _) =>
    let st2 := { st1 with map_items := upsert st1.map_items item.id item }
    let st3 := sync_grosh env.remote st2
    { state := st3
      effs := effs ++ [Eff.fetchItems, Eff.save]
      result := Except.ok item.to_ha }

/-- Accumulator state threaded through the loop of `async_clear_completed`. -/
structure ClearAcc where
  recent_list : List ShoppingItem
  items : List HaItem
  toRemove : List Str
  deriving Repr

/-- The `for key, itm in self.map_items.items()` loop of
`async_clear_completed`: every entry with `itm.bought` first calls
`self.grosh.remove_item(itm)` — which always raises `NotImplementedError` —
and only then would drop the item from `recent_list` and `items` and record
its key.  The loop aborts at the first bought entry, before any mutation. -/
def clearLoop (catalog : List (Str × Str)) (entries : ItemMap) (acc : ClearAcc) :
    ClearAcc × Option PyErr :=
  match entries with
  | [] => (acc, none)
  | (key, itm) :: rest =>
    if itm.bought then
      match grosh_remove_item catalog itm with
      | (_, Except.error e) => (acc, some e)
      | (_, Except.ok _) =>
        clearLoop catalog rest
          { recent_list := removeFirst acc.recent_list itm
            items := removeFirst acc.items itm.to_ha
            toRemove := acc.toRemove ++ [key] }
    else clearLoop catalog rest acc

/-- Python `dict.pop(key)` on a unique-keyed association list. -/
def popKey {α : Type} (m : List (Str × α)) (k : Str) : List (Str × α) :=
  match m with
  | [] => []
  | p :: rest => if p.1 = k then rest else p :: popKey rest k

/-- Embeds `ShoppingData.async_clear_completed`: run the removal loop, pop the
collected keys, then sync and save.  When the loop raises, the partially
mutated lists remain and the map, sync and save are untouched. -/
def async_clear_completed (env : Env) (st : ShoppingState) : OpResult Unit :=
  match clearLoop env.catalog st.map_items
      { recent_list := st.recent_list, items := st.items, toRemove := [] } with
  | (acc, some e) =>
    { state := { st with recent_list := acc.recent_list, items := acc.items }
      effs := []
      result := Except.error e }
  | (acc, none) =>
    let st1 := { st with
      recent_list := acc.recent_list
      items := acc.items
      map_items := acc.toRemove.foldl popKey st.map_items }
    let st2 := sync_grosh env.remote st1
    { state := st2, effs := [Eff.fetchItems, Eff.save], result := Except.ok () }

/-- Embeds `GroshApi.select_list`: `get_lists` (a `GET`), then pick the first list
whose name equals the argument, raising `ValueError` when none matches. -/
def select_list (env : Env) (name : Str) : List Eff × Except PyErr Unit :=
  if env.listNames.contains name then ([Eff.getLists], Except.ok ())
  else ([Eff.getLists], Except.error PyErr.valueError)

/-- Embeds `ShoppingData.switch_list`:

```python
self.map_items = {}
await self.grosh.api.select_list(list_name)
await self.sync_grosh()
```

The map is cleared before the remote call; there is no save step. -/
def switch_list (env : Env) (st : ShoppingState) (list_name : Str) : OpResult Unit :=
  let st1 := { st with map_items := [] }
  match select_list env list_name with
  | (effs, Except.error e) => { state := st1, effs := effs, result := Except.error e }
  | (effs, Except.ok _) =>
    { state := sync_grosh env.remote st1
      effs := effs ++ [Eff.fetchItems]
      result := Except.ok () }

/-- A Python value as produced by `response.json()`. -/
inductive PyJson where
  | obj (fields : List (Str × PyJson))
  | str (s : Str)
  | num (n : Int)
  | arr (elems : List PyJson)
  | bool (b : Bool)
  | null

/-- Python truthiness for the values above. -/
def PyJson.truthy : PyJson → Bool
  | .obj [] => false
  | .obj (_ :: _) => true
  | .str [] => false
  | .str (_ :: _) => true
  | .num n => n != 0
  | .arr [] => false
  | .arr (_ :: _) => true
  | .bool b => b
  | .null => false

/-- Python `dict.get(key)`: `none` models Python `None` for a missing key. -/
def PyJson.get (fields : List (Str × PyJson)) (k : Str) : Option PyJson :=
  lookupKey k fields

/-- The response body as `check_response` sees it: either it parses as JSON
or `response.json(content_type=None)` raises `JSONDecodeError` and
`response.text()` yields the raw text. -/
inductive RespBody where
  | json (v : PyJson)
  | text (t : Str)

/-- How `GroshApi.check_response` terminates. -/
inductive RespOutcome where
  /-- Plain return on 200/204. -/
  | success
  /-- Outcome `raise Exception(response.url, response.reason)` on 404. -/
  | exception404
  /-- Outcome `raise AuthentificationFailed(...)` on 401. -/
  | authFailed
  /-- Outcome `raise Exception(message if message else result)` with its payload. -/
  | exceptionMsg (payload : PyJson)
  /-- Crash `AttributeError`: `result.get(...)` evaluated on `None` or on a
  non-dict value (in particular the raw-text fallback, a `str`). -/
  | attributeError

/-- Embeds `GroshApi.check_response`:

```python
if response.status in [200, 204]: return
elif response.status == 404: raise Exception(response.url, response.reason)
try: result = await response.json(content_type=None)
except JSONDecodeError: result = await response.text()
if not result: result = None
if response.status == 401:
    raise AuthentificationFailed(response.url, result or response.reason)
message = None
if result.get("errorCode"):
    message = result.get("error")
raise Exception(message if message else result)
```
-/
def check_response (status : Nat) (body : RespBody) : RespOutcome :=
  if status = 200 ∨ status = 204 then RespOutcome.success
  else if status = 404 then RespOutcome.exception404
  else
    let parsed : PyJson :=
      match body with
      | RespBody.json v => v
      | RespBody.text t => PyJson.str t
    let result : Option PyJson := if parsed.truthy then some parsed else none
    if status = 401 then RespOutcome.authFailed
    else
      match result with
      | some (PyJson.obj fields) =>
        let ec := PyJson.get fields "errorCode".toList
        let message : Option PyJson :=
          if (match ec with | some v => v.truthy | none => false) then
            PyJson.get fields "error".toList
          else none
        match message with
        | some m => if m.truthy then RespOutcome.exceptionMsg m
                    else RespOutcome.exceptionMsg (PyJson.obj fields)
        | none => RespOutcome.exceptionMsg (PyJson.obj fields)
      | _ => RespOutcome.attributeError

/-- Python `dict` equality on item maps: equal value under every key
(keys are unique in every map the program builds, so this is exactly
CPython's order-insensitive `dict.__eq__`). -/
def dictEqv (m1 m2 : ItemMap) : Prop :=
  ∀ k : Str, lookupKey k m1 = lookupKey k m2

/-- The invariant every reachable local item map satisfies: each entry is
keyed by its item's `name` (`async_add` and the rename branch of
`async_update` set `id = name`, and `sync_grosh` upserts keyed by ids that
resolve to names or reuse such keys). -/
def KeyInv (m : ItemMap) : Prop :=
  ∀ p ∈ m, p.1 = p.2.name

instance (m : ItemMap) : Decidable (KeyInv m) :=
  inferInstanceAs (Decidable (∀ p ∈ m, p.1 = p.2.name))

/-- The items one reconciliation pass upserts, as they come out of
`grosh_to_shopping` when the scan resolves every id to the plain remote
name (the `KeyInv` situation). -/
def canonItems (remote : RemoteLists) : List ShoppingItem :=
  remote.purchase.map (fun r =>
    { name := r.name, id := r.name, amount := none, groceryId := r.groceryId, bought := false })
    ++ remote.bought.map (fun r =>
      { name := r.name, id := r.name, amount := none, groceryId := r.groceryId, bought := true })

/-- Environment for the `add("Milk")` scenario: a catalog that maps
`"Milk"` to its canonical provider name, and an empty remote list. -/
def envMilk : Env :=
  { catalog := [("Milk".toList, "Melk".toList)]
    listNames := []
    remote := { purchase := [], bought := [] } }

/-- The item `async_add("Milk")` constructs before pushing. -/
def milkItem : ShoppingItem :=
  { name := "Milk".toList, id := "Milk".toList, amount := none
    groceryId := [], bought := false }

/-- A completed local item, for the clear-completed scenario. -/
def boughtMilk : ShoppingItem :=
  { name := "Milk".toList, id := "Milk".toList, amount := none
    groceryId := "g1".toList, bought := true }

/-- State holding exactly one completed item. -/
def stBoughtMilk : ShoppingState :=
  { map_items := [("Milk".toList, boughtMilk)]
    items := [boughtMilk.to_ha]
    purchase_list := []
    recent_list := [boughtMilk] }

/-- Environment whose remote knows a list called `"Weekend"`. -/
def envWeekend : Env :=
  { catalog := []
    listNames := ["Weekend".toList]
    remote := { purchase := [⟨"Eggs".toList, "r1".toList⟩], bought := [] } }

/-- A map violating `KeyInv`: the entry is keyed `"B"` but stores an item
named `"A"`.  Double reconciliation diverges from single reconciliation
on it. -/
def badMap : ItemMap :=
  [("B".toList,
    { name := "A".toList, id := "B".toList, amount := none
      groceryId := "1".toList, bought := false })]

/-- State wrapping `badMap`. -/
def badState : ShoppingState :=
  { map_items := badMap, items := [], purchase_list := [], recent_list := [] }

/-- Remote contents that expose the non-idempotence of reconciliation on
`badMap`: one pending item matching the stored `(name, groceryId)` pair and
one pending item whose plain name collides with the stored key. -/
def badRemote : RemoteLists :=
  { purchase := [⟨"A".toList, "1".toList⟩, ⟨"B".toList, "2".toList⟩]
    bought := [] }

/-- A `KeyInv` state for the idempotence witness. -/
def invState : ShoppingState :=
  { map_items := [("Milk".toList,
      { name := "Milk".toList, id := "Milk".toList, amount := none
        groceryId := [], bought := false })]
    items := []
    purchase_list := []
    recent_list := [] }

/-! ## Supporting lemmas -/

/-- Appending the marker `" ["` to a marker-free string puts the first
marker occurrence exactly at the old length (the marker cannot arise
across the boundary, since its second character `'['` would have to be the
appended space). -/
theorem findMarker_append_marker (name t : Str) (h : findMarker name = none) :
    findMarker (name ++ ' ' :: '[' :: t) = some name.length := by
  induction name with
  | nil => simp [findMarker]
  | cons a rest ih =>
    cases rest with
    | nil =>
      have hne : ¬(a = ' ' ∧ ' ' = '[') := by
        rintro ⟨-, h2⟩; exact absurd h2 (by decide)
      simp [findMarker, hne]
    | cons b rest2 =>
      simp only [findMarker] at h
      by_cases hc : a = ' ' ∧ b = '['
      · simp [hc] at h
      · rw [if_neg hc] at h
        have hrest : findMarker (b :: rest2) = none := by
          cases hfm : findMarker (b :: rest2) with
          | none => rfl
          | some k => rw [hfm] at h; simp at h
        have hih := ih hrest
        have hcons : (b :: rest2) ++ ' ' :: '[' :: t = b :: (rest2 ++ ' ' :: '[' :: t) := rfl
        rw [hcons] at hih
        show findMarker (a :: (b :: (rest2 ++ ' ' :: '[' :: t))) = some (a :: b :: rest2).length
        simp only [findMarker, if_neg hc, hih, Option.map_some]
        simp [List.length_cons]

/-- Splitting a joined display string recovers the original pair, provided
the plain name is marker-free. -/
theorem splitName_join (name rid : Str) (h : findMarker name = none) :
    splitName (name ++ ' ' :: '[' :: (rid ++ [']'])) = (name, rid) := by
  unfold splitName
  rw [findMarker_append_marker name (rid ++ [']']) h]
  have hshape : name ++ ' ' :: '[' :: (rid ++ [']']) =
      (name ++ [' ', '[']) ++ (rid ++ [']']) := by simp
  have hlen2 : (name ++ [' ', '[']).length = name.length + 2 := by simp
  show (List.take name.length (name ++ ' ' :: '[' :: (rid ++ [']'])),
      List.take ((name ++ ' ' :: '[' :: (rid ++ [']'])).length - 1 - (name.length + 2))
        (List.drop (name.length + 2) (name ++ ' ' :: '[' :: (rid ++ [']'])))) = (name, rid)
  rw [Prod.mk.injEq]
  constructor
  · rw [List.take_append_of_le_length (by simp), List.take_length]
  · rw [hshape, ← hlen2, List.drop_left]
    have hlen : ((name ++ [' ', '[']) ++ (rid ++ [']'])).length - 1 - (name ++ [' ', '[']).length
        = rid.length := by simp; omega
    rw [hlen]
    exact List.take_left rid [']']

/-- The scan in `resolveId` either reuses the key of a matching entry or
falls back to the remote item's plain name. -/
theorem resolveId_spec (bn bg : Str) (m : ItemMap) :
    (∃ p ∈ m, bn = p.2.name ∧ bg = p.2.groceryId ∧ resolveId bn bg m = p.1) ∨
      ((¬ ∃ p ∈ m, bn = p.2.name ∧ bg = p.2.groceryId) ∧ resolveId bn bg m = bn) := by
  induction m with
  | nil =>
    refine Or.inr ⟨?_, rfl⟩
    rintro ⟨p, hp, -⟩
    exact List.not_mem_nil p hp
  | cons q rest ih =>
    by_cases hc : bn = q.2.name ∧ bg = q.2.groceryId
    · left
      exact ⟨q, List.mem_cons_self q rest, hc.1, hc.2, by
        show resolveId bn bg (q :: rest) = q.1
        rw [show (q : Str × ShoppingItem) = (q.1, q.2) from rfl]
        simp [resolveId, hc]⟩
    · have hstep : resolveId bn bg (q :: rest) = resolveId bn bg rest := by
        rw [show (q : Str × ShoppingItem) = (q.1, q.2) from rfl]
        simp [resolveId, hc]
      rcases ih with ⟨p, hp, h1, h2, h3⟩ | ⟨hno, hres⟩
      · exact Or.inl ⟨p, List.mem_cons_of_mem q hp, h1, h2, by rw [hstep]; exact h3⟩
      · refine Or.inr ⟨?_, by rw [hstep]; exact hres⟩
        rintro ⟨p, hp, h1, h2⟩
        rcases List.mem_cons.mp hp with hq | hrest2
        · exact hc ⟨hq ▸ h1, hq ▸ h2⟩
        · exact hno ⟨p, hrest2, h1, h2⟩

/-- When every key equals its item's name, the scan always resolves to the
remote item's plain name. -/
theorem resolveId_eq_name (bn bg : Str) (m : ItemMap) (h : KeyInv m) :
    resolveId bn bg m = bn := by
  induction m with
  | nil => rfl
  | cons q rest ih =>
    have hq : q.1 = q.2.name := h q (List.mem_cons_self q rest)
    have hrest : KeyInv rest := fun p hp => h p (List.mem_cons_of_mem q hp)
    by_cases hc : bn = q.2.name ∧ bg = q.2.groceryId
    · show resolveId bn bg (q :: rest) = bn
      rw [show (q : Str × ShoppingItem) = (q.1, q.2) from rfl]
      simp only [resolveId, if_pos hc]
      rw [hq, ← hc.1]
    · show resolveId bn bg (q :: rest) = bn
      rw [show (q : Str × ShoppingItem) = (q.1, q.2) from rfl]
      simp only [resolveId, if_neg hc]
      exact ih hrest

/-- Reading back through a dict assignment. -/
theorem lookupKey_upsert {α : Type} (m : List (Str × α)) (k k2 : Str) (v : α) :
    lookupKey k2 (upsert m k v) = if k2 = k then some v else lookupKey k2 m := by
  induction m with
  | nil =>
    show lookupKey k2 [(k, v)] = _
    show (if k = k2 then some v else none) = _
    by_cases h : k = k2
    · rw [if_pos h, if_pos h.symm]
    · rw [if_neg h, if_neg (fun hh => h hh.symm)]
      rfl
  | cons p rest ih =>
    show lookupKey k2 (if p.1 = k then (k, v) :: rest else p :: upsert rest k v) = _
    by_cases h1 : p.1 = k
    · rw [if_pos h1]
      show (if k = k2 then some v else lookupKey k2 rest) = _
      by_cases h2 : k = k2
      · rw [if_pos h2, if_pos h2.symm]
      · rw [if_neg h2, if_neg (fun hh => h2 hh.symm)]
        show lookupKey k2 rest = lookupKey k2 (p :: rest)
        show lookupKey k2 rest = if p.1 = k2 then some p.2 else lookupKey k2 rest
        rw [if_neg (fun hh => h2 (h1 ▸ hh))]
    · rw [if_neg h1]
      show (if p.1 = k2 then some p.2 else lookupKey k2 (upsert rest k v)) = _
      by_cases h3 : p.1 = k2
      · rw [if_pos h3]
        have hk2k : ¬k2 = k := fun hh => h1 (h3.symm ▸ hh)
        rw [if_neg hk2k]
        show some p.2 = if p.1 = k2 then some p.2 else lookupKey k2 rest
        rw [if_pos h3]
      · rw [if_neg h3, ih]
        by_cases h4 : k2 = k
        · rw [if_pos h4, if_pos h4]
        · rw [if_neg h4, if_neg h4]
          show lookupKey k2 rest = if p.1 = k2 then some p.2 else lookupKey k2 rest
          rw [if_neg h3]

/-- The value the loop `for itm in items: m[itm.id] = itm` finally stores
under key `k`: the last list element whose id is `k`, if any. -/
def lastWithId (items : List ShoppingItem) (k : Str) : Option ShoppingItem :=
  match items with
  | [] => none
  | it :: rest =>
    match lastWithId rest k with
    | some v => some v
    | none => if it.id = k then some it else none

/-- Reading back through the upsert loop of `sync_grosh`. -/
theorem lookupKey_upsertItems (L : List ShoppingItem) (m : ItemMap) (k : Str) :
    lookupKey k (upsertItems m L) =
      match lastWithId L k with
      | some v => some v
      | none => lookupKey k m := by
  induction L generalizing m with
  | nil => simp [upsertItems, lastWithId]
  | cons it rest ih =>
    have hstep : upsertItems m (it :: rest) = upsertItems (upsert m it.id it) rest := rfl
    rw [hstep, ih (upsert m it.id it)]
    show (match lastWithId rest k with
          | some v => some v
          | none => lookupKey k (upsert m it.id it)) = _
    cases hlast : lastWithId rest k with
    | some v => simp [lastWithId, hlast]
    | none =>
      simp only [lastWithId, hlast, lookupKey_upsert]
      by_cases h : k = it.id
      · simp [h]
      · have : ¬(it.id = k) := fun hh => h hh.symm
        simp [h, this]

/-- Under `KeyInv`, a reconciliation pass resolves every remote item to its
plain name, so the upserted batch is `canonItems` — independent of the map. -/
theorem syncMap_eq_canon (remote : RemoteLists) (m : ItemMap) (h : KeyInv m) :
    syncMap remote m = upsertItems m (canonItems remote) := by
  unfold syncMap canonItems
  congr 1
  congr 1
  · exact List.map_congr_left fun r _ => by
      simp [grosh_to_shopping, resolveId_eq_name r.name r.groceryId m h]
  · exact List.map_congr_left fun r _ => by
      simp [grosh_to_shopping, resolveId_eq_name r.name r.groceryId m h]

/-- Dict assignment with `k = v.name` preserves `KeyInv`. -/
theorem KeyInv_upsert (m : ItemMap) (k : Str) (v : ShoppingItem) (h : KeyInv m)
    (hk : k = v.name) : KeyInv (upsert m k v) := by
  induction m with
  | nil => intro p hp; simp [upsert] at hp; simp [hp, hk]
  | cons q rest ih =>
    intro p hp
    by_cases h1 : q.1 = k
    · simp only [upsert, if_pos h1] at hp
      rcases List.mem_cons.mp hp with hpk | hprest
      · simp [hpk, hk]
      · exact h p (List.mem_cons_of_mem q hprest)
    · simp only [upsert, if_neg h1] at hp
      rcases List.mem_cons.mp hp with hpq | hprest
      · exact hpq ▸ h q (List.mem_cons_self q rest)
      · exact ih (fun r hr => h r (List.mem_cons_of_mem q hr)) p hprest

/-- The upsert loop preserves `KeyInv` when every batch item has
`id = name` (true of `canonItems`). -/
theorem KeyInv_upsertItems (L : List ShoppingItem) (m : ItemMap) (h : KeyInv m)
    (hL : ∀ it ∈ L, it.id = it.name) : KeyInv (upsertItems m L) := by
  induction L generalizing m with
  | nil => exact h
  | cons it rest ih =>
    have hstep : upsertItems m (it :: rest) = upsertItems (upsert m it.id it) rest := rfl
    rw [hstep]
    exact ih (upsert m it.id it)
      (KeyInv_upsert m it.id it h (hL it (List.mem_cons_self it rest)))
      (fun r hr => hL r (List.mem_cons_of_mem it hr))

/-- Every `canonItems` entry has `id = name`. -/
theorem canonItems_id_eq_name (remote : RemoteLists) :
    ∀ it ∈ canonItems remote, it.id = it.name := by
  intro it hit
  rcases List.mem_append.mp hit with hmem | hmem <;>
    · rcases List.mem_map.mp hmem with ⟨r, -, hr⟩
      rw [← hr]

/-! ## Claim theorems -/

/-- C1: `add("Milk")` from the empty persisted state does NOT leave one
entry in the local item map and does NOT issue a remote purchase call: the
push inside `async_add` calls `GroshApi.purchase_item` with two positional
arguments while it accepts one, so the operation dies with `TypeError`
after appending to the display list — the map stays empty and no HTTP
request is emitted. -/
theorem add_milk_crashes_before_insert :
    (async_add envMilk emptyState "Milk".toList).result = Except.error PyErr.typeError ∧
    (async_add envMilk emptyState "Milk".toList).state.map_items = [] ∧
    (async_add envMilk emptyState "Milk".toList).effs = [] ∧
    (async_add envMilk emptyState "Milk".toList).state.items = [milkItem.to_ha] :=
  ⟨rfl, rfl, rfl, rfl⟩

/-- C2 (counterexample): at the concrete input `add("Bread")` the remote
push fails, and — contrary to the claim — add does not complete with the
stored record: the failure is surfaced as an escaping `TypeError`. -/
theorem add_push_failure_is_surfaced_cex :
    (async_add envMilk emptyState "Bread".toList).result ≠
        Except.ok (ShoppingItem.to_ha
          { name := "Bread".toList, id := "Bread".toList, amount := none
            groceryId := [], bought := false }) ∧
      (async_add envMilk emptyState "Bread".toList).result
        = Except.error PyErr.typeError := by
  refine ⟨fun h => ?_, rfl⟩
  exact Except.noConfusion h

/-- C2 (amended): for every environment, starting state and name, the
remote-push failure inside add IS surfaced — `async_add` propagates the
exception, leaves the local item map untouched, emits no traffic and never
reaches sync or save; only the eagerly appended display record remains. -/
theorem add_push_failure_is_surfaced (env : Env) (st : ShoppingState) (rawName : Str) :
    (async_add env st rawName).result = Except.error PyErr.typeError ∧
    (async_add env st rawName).state.map_items = st.map_items ∧
    (async_add env st rawName).effs = [] ∧
    (async_add env st rawName).state.items = st.items ++
      [ShoppingItem.to_ha
        { name := (splitName rawName).1, id := (splitName rawName).1, amount := none
          groceryId := (splitName rawName).2, bought := false }] :=
  ⟨rfl, rfl, rfl, rfl⟩

/-- C3: response classification of `check_response`: 200/204 succeed,
404 raises its dedicated exception before any body parsing, 401 raises
`AuthentificationFailed`, and a JSON error object yields the
message-carrying exception — but the raw-text fallback for a non-JSON body
crashes with `AttributeError` (`result.get` on a `str`) instead of raising
the message-carrying exception with the raw text. -/
theorem check_response_classification :
    check_response 200 (RespBody.text "ok".toList) = RespOutcome.success ∧
    check_response 204 (RespBody.json PyJson.null) = RespOutcome.success ∧
    check_response 404 (RespBody.text "missing".toList) = RespOutcome.exception404 ∧
    check_response 401 (RespBody.text "denied".toList) = RespOutcome.authFailed ∧
    check_response 500 (RespBody.json (PyJson.obj
        [("errorCode".toList, PyJson.num 7), ("error".toList, PyJson.str "boom".toList)]))
      = RespOutcome.exceptionMsg (PyJson.str "boom".toList) ∧
    check_response 500 (RespBody.text "Server Error".toList) = RespOutcome.attributeError :=
  ⟨rfl, rfl, rfl, rfl, rfl, rfl⟩

/-- C4: clear-completed on a map holding one completed entry does NOT
remove it: the remote `removeItem` is a stub that raises
`NotImplementedError` unconditionally, so the operation aborts with the
state fully unchanged and no request emitted. -/
theorem clear_completed_crashes_on_stub :
    (async_clear_completed envMilk stBoughtMilk).result
        = Except.error PyErr.notImplemented ∧
    (async_clear_completed envMilk stBoughtMilk).state = stBoughtMilk ∧
    (async_clear_completed envMilk stBoughtMilk).effs = [] :=
  ⟨rfl, rfl, rfl⟩

/-- C5 (counterexample): `add("")` does not fail with the validation error
the claim promises — it fails with the same `TypeError` every add hits,
and only for that unrelated reason inserts nothing into the map. -/
theorem add_empty_name_not_validated_cex :
    (async_add envMilk emptyState []).result ≠ Except.error PyErr.validationError ∧
    (async_add envMilk emptyState []).result = Except.error PyErr.typeError ∧
    (async_add envMilk emptyState []).state.map_items = [] := by
  refine ⟨fun h => ?_, rfl, rfl⟩
  exact absurd (Except.error.inj h) (by decide)

/-- C5 (amended): add performs no validation of the name: an empty name is
processed like any other, the operation fails with `TypeError` from the
broken remote push (never `ValidationError`), and nothing is inserted into
the local item map. -/
theorem add_empty_name_not_validated (env : Env) (st : ShoppingState) :
    (async_add env st []).result = Except.error PyErr.typeError ∧
    (async_add env st []).state.map_items = st.map_items :=
  ⟨rfl, rfl⟩

/-- C6 (counterexample): a successful `switch_list` emits no save — the
claim's final "persists the resulting collection" step does not happen. -/
theorem switch_list_never_persists_cex :
    (switch_list envWeekend emptyState "Weekend".toList).result = Except.ok () ∧
      Eff.save ∉ (switch_list envWeekend emptyState "Weekend".toList).effs := by
  refine ⟨rfl, ?_⟩
  decide

/-- C6 (amended): for every list name known to the remote, `switch_list`
first clears the entire local item map, then selects the list remotely,
then reconciles starting from the cleared map — and does NOT persist. -/
theorem switch_list_clears_selects_syncs (env : Env) (st : ShoppingState) (name : Str)
    (h : env.listNames.contains name = true) :
    switch_list env st name =
      { state := sync_grosh env.remote { st with map_items := [] }
        effs := [Eff.getLists, Eff.fetchItems]
        result := Except.ok () } := by
  have hmem : name ∈ env.listNames := by simpa using h
  simp [switch_list, select_list, hmem]

/-- Witness for the amended C6 theorem at a concrete environment. -/
theorem switch_list_clears_selects_syncs_witness :
    envWeekend.listNames.contains "Weekend".toList = true ∧
      switch_list envWeekend emptyState "Weekend".toList =
        { state := sync_grosh envWeekend.remote { emptyState with map_items := [] }
          effs := [Eff.getLists, Eff.fetchItems]
          result := Except.ok () } :=
  ⟨by decide, switch_list_clears_selects_syncs envWeekend emptyState "Weekend".toList (by decide)⟩

/-- C7: splitting the display name produced by `to_ha` recovers the plain
name and the grocery id exactly, for every item whose plain name does not
contain the literal `" ["` marker. -/
theorem split_join_display_name (it : ShoppingItem) (h : findMarker it.name = none) :
    splitName it.to_ha.name = (it.name, it.groceryId) := by
  show splitName (it.name ++ (' ' :: '[' :: (it.groceryId ++ [']']))) = _
  exact splitName_join it.name it.groceryId h

/-- Witness for the C7 round trip at a concrete item. -/
theorem split_join_display_name_witness :
    findMarker "Milk".toList = none ∧
      splitName (ShoppingItem.to_ha
          { name := "Milk".toList, id := "Milk".toList, amount := none
            groceryId := "g1".toList, bought := false }).name
        = ("Milk".toList, "g1".toList) :=
  ⟨by decide, split_join_display_name _ (by decide)⟩

/-- C8: the id the Identity Resolver assigns is an existing map key whose
entry matches the remote item's `(name, groceryId)` pair when such an
entry exists, and the remote item's plain name otherwise. -/
theorem grosh_to_shopping_id_resolution (bitm : RemoteItem) (m : ItemMap) (bought : Bool) :
    (∃ p ∈ m, bitm.name = p.2.name ∧ bitm.groceryId = p.2.groceryId ∧
        (grosh_to_shopping bitm m bought).id = p.1) ∨
      ((¬ ∃ p ∈ m, bitm.name = p.2.name ∧ bitm.groceryId = p.2.groceryId) ∧
        (grosh_to_shopping bitm m bought).id = bitm.name) :=
  resolveId_spec bitm.name bitm.groceryId m

/-- C9 (counterexample): reconciliation is not idempotent in general — on
`badState` (an entry keyed `"B"` holding an item named `"A"`), two passes
against the unchanged `badRemote` produce a map that differs from the map
after one pass: the second pass mints a fresh `"A"` key. -/
theorem sync_grosh_not_idempotent_cex :
    ¬ dictEqv (sync_grosh badRemote (sync_grosh badRemote badState)).map_items
        (sync_grosh badRemote badState).map_items := by
  intro h
  have hA := h "A".toList
  revert hA
  decide

/-- C9 (amended): under the key-equals-name invariant, which every map the
program builds satisfies, a second reconciliation pass against the same
remote pending and bought lists leaves the local item map unchanged (as a
dict: same value under every key). -/
theorem sync_grosh_idempotent (remote : RemoteLists) (st : ShoppingState)
    (h : KeyInv st.map_items) :
    dictEqv (sync_grosh remote (sync_grosh remote st)).map_items
      (sync_grosh remote st).map_items := by
  intro k
  have hmap : (sync_grosh remote st).map_items = syncMap remote st.map_items := rfl
  have hmap2 : (sync_grosh remote (sync_grosh remote st)).map_items
      = syncMap remote (sync_grosh remote st).map_items := rfl
  rw [hmap2, hmap, syncMap_eq_canon remote st.map_items h]
  have hinv2 : KeyInv (upsertItems st.map_items (canonItems remote)) :=
    KeyInv_upsertItems _ _ h (canonItems_id_eq_name remote)
  rw [syncMap_eq_canon remote _ hinv2]
  rw [lookupKey_upsertItems, lookupKey_upsertItems]
  cases hl : lastWithId (canonItems remote) k with
  | some v => simp
  | none => simp [lookupKey_upsertItems, hl]

/-- Witness for the amended C9 theorem at a concrete invariant-satisfying
state. -/
theorem sync_grosh_idempotent_witness :
    KeyInv invState.map_items ∧
      lookupKey "Eggs".toList
          (sync_grosh envWeekend.remote (sync_grosh envWeekend.remote invState)).map_items
        = lookupKey "Eggs".toList (sync_grosh envWeekend.remote invState).map_items :=
  ⟨by decide, sync_grosh_idempotent envWeekend.remote invState (by decide) "Eggs".toList⟩

/-- C10: the display transform unconditionally appends the bracket suffix
`" [" + groceryId + "]"`; with an empty grocery id the exposed name ends
in the literal `" []"`, and it is never the plain name. -/
theorem to_ha_always_appends_suffix (it : ShoppingItem) :
    it.to_ha.name = it.name ++ (' ' :: '[' :: (it.groceryId ++ [']'])) ∧
    (ShoppingItem.to_ha { it with groceryId := [] }).name = it.name ++ [' ', '[', ']'] ∧
    it.to_ha.name ≠ it.name := by
  refine ⟨rfl, rfl, fun h => ?_⟩
  have hlen := congrArg List.length h
  simp [ShoppingItem.to_ha] at hlen

end ShoppingList
